import Mathlib

/-!
# Verification of the JAXAtariPacman session control loop

Shallow embedding of the two source files of the repository:

* `play_pacman_ui.py` — the interactive pygame session: environment setup,
  seed derivation via `jax.random.fold_in` (Threefry-2x32), the event/pause/
  step/render loop, manual and automatic resets, and the module-level error
  handling.
* `run_pacman.py` — the scripted test runner, in particular its scripted
  action policy `action = (step // 10) % 4 + 1`.

Machine integers (uint32 words of PRNG keys) are modelled as `ℕ` with
explicit reduction `% 2 ^ 32`.  Python floats (rewards) are modelled as `ℚ`;
the claims about them concern only exact bookkeeping (adding a step reward,
zeroing on reset), not rounding.  The opaque environment (`jaxatari.make`)
is a parameter: a record of its `reset` / `step` / `render` functions.
-/

/-! ## Threefry-2x32 (jax.random.fold_in seed derivation)

`jax.random.fold_in(key, data)` derives a fresh key as
`threefry_2x32(key, threefry_seed(uint32(data)))`.  The cipher below is
transcribed from JAXʼs `_threefry2x32_lowering`: 20 mix rounds with rotation
schedule [13,15,26,6] / [17,29,16,24] and key injections every 4 rounds,
all arithmetic on 32-bit words. -/

/-- `2 ^ 32`, the modulus of uint32 word arithmetic. -/
def w32 : ℕ := 2 ^ 32

/-- uint32 addition: add and wrap. -/
def add32 (a b : ℕ) : ℕ := (a + b) % w32

/-- uint32 subtraction (used only by the inverse cipher). -/
def sub32 (a b : ℕ) : ℕ := (a + (w32 - b % w32)) % w32

/-- Left-rotation of a 32-bit word by `d` bits (`0 < d < 32`): the low
`32 - d` bits move up by `d`, the high `d` bits wrap to the bottom.  For
`x < 2 ^ 32` this equals `((x <<< d) ||| (x >>> (32 - d))) % 2 ^ 32`,
JAXʼs `rotate_left`. -/
def rotl32 (x d : ℕ) : ℕ := x % 2 ^ (32 - d) * 2 ^ d + x / 2 ^ (32 - d)

/-- One Threefry mix round (JAX `apply_round`):
`v0 += v1; v1 = rotl(v1, d); v1 ^= v0`. -/
def tfRound (d : ℕ) (v : ℕ × ℕ) : ℕ × ℕ :=
  let x0 := add32 v.1 v.2
  (x0, x0 ^^^ rotl32 v.2 d)

/-- Inverse of one mix round. -/
def tfRoundInv (d : ℕ) (v : ℕ × ℕ) : ℕ × ℕ :=
  let y1 := rotl32 (v.1 ^^^ v.2) (32 - d)
  (sub32 v.1 y1, y1)

/-- Four consecutive mix rounds with rotations `d1 d2 d3 d4`. -/
def mix4 (d1 d2 d3 d4 : ℕ) (v : ℕ × ℕ) : ℕ × ℕ :=
  tfRound d4 (tfRound d3 (tfRound d2 (tfRound d1 v)))

/-- Inverse of `mix4`. -/
def mix4Inv (d1 d2 d3 d4 : ℕ) (v : ℕ × ℕ) : ℕ × ℕ :=
  tfRoundInv d1 (tfRoundInv d2 (tfRoundInv d3 (tfRoundInv d4 v)))

/-- Key injection: add a key word into each half. -/
def inject (a b : ℕ) (v : ℕ × ℕ) : ℕ × ℕ := (add32 v.1 a, add32 v.2 b)

/-- Inverse of `inject`. -/
def extract (a b : ℕ) (v : ℕ × ℕ) : ℕ × ℕ := (sub32 v.1 a, sub32 v.2 b)

/-- The Threefry-2x32 block cipher with 20 rounds, as lowered by JAX:
initial key injection, then five groups of four mix rounds, each followed
by a key injection with the rotated key schedule
`ks = [k0, k1, k0 ^ k1 ^ 0x1BD11BDA]` and the round-group counter added to
the second word. -/
def threefry2x32 (key x : ℕ × ℕ) : ℕ × ℕ :=
  let k0 := key.1
  let k1 := key.2
  let k2 := k0 ^^^ k1 ^^^ 0x1BD11BDA
  let v := inject k0 k1 x
  let v := inject k1 (add32 k2 1) (mix4 13 15 26 6 v)
  let v := inject k2 (add32 k0 2) (mix4 17 29 16 24 v)
  let v := inject k0 (add32 k1 3) (mix4 13 15 26 6 v)
  let v := inject k1 (add32 k2 4) (mix4 17 29 16 24 v)
  inject k2 (add32 k0 5) (mix4 13 15 26 6 v)

/-- Inverse Threefry-2x32: undo the injections and rounds in reverse. -/
def threefry2x32Inv (key v : ℕ × ℕ) : ℕ × ℕ :=
  let k0 := key.1
  let k1 := key.2
  let k2 := k0 ^^^ k1 ^^^ 0x1BD11BDA
  let v := mix4Inv 13 15 26 6 (extract k2 (add32 k0 5) v)
  let v := mix4Inv 17 29 16 24 (extract k1 (add32 k2 4) v)
  let v := mix4Inv 13 15 26 6 (extract k0 (add32 k1 3) v)
  let v := mix4Inv 17 29 16 24 (extract k2 (add32 k0 2) v)
  extract k0 k1 (mix4Inv 13 15 26 6 (extract k1 (add32 k2 1) v))

/-- JAX `threefry_seed`: split a seed integer into two 32-bit words
(high word, low word).  `PRNGKey 42 = (0, 42)`. -/
def threefry_seed (seed : ℕ) : ℕ × ℕ := (seed / w32 % w32, seed % w32)

/-- `jax.random.PRNGKey` for the Threefry implementation. -/
def PRNGKey (seed : ℕ) : ℕ × ℕ := threefry_seed seed

/-- `jax.random.fold_in(key, data)`: the data is first converted to uint32
(wrap modulo `2 ^ 32`), expanded to a key-shaped pair by `threefry_seed`,
and enciphered under `key`. -/
def fold_in (key : ℕ × ℕ) (data : ℕ) : ℕ × ℕ :=
  threefry2x32 key (threefry_seed (data % w32))

/-- `master_key = jrandom.PRNGKey(42)` (play_pacman_ui.py line 48). -/
def master_key : ℕ × ℕ := PRNGKey 42

-- Known-answer test from the Random123 reference suite:
-- Threefry-2x32, 20 rounds, zero key and zero counter.
example : threefry2x32 (0, 0) (0, 0) = (0x6b200159, 0x99ba4efe) := by decide

/-! ### Invertibility of the cipher

Every component of Threefry-2x32 is a bijection on 32-bit words: wrapped
addition, xor against a fixed word, and rotation.  We build the explicit
inverse and prove the round trip, yielding injectivity of the cipher on
pairs of 32-bit words and hence pairwise-distinct derived seeds. -/

lemma w32_pos : 0 < w32 := by norm_num [w32]

lemma w32_eq : w32 = 4294967296 := by norm_num [w32]

lemma add32_lt (a b : ℕ) : add32 a b < w32 := Nat.mod_lt _ w32_pos

lemma sub32_add32 (x k : ℕ) (hx : x < w32) : sub32 (add32 x k) k = x := by
  simp only [sub32, add32, w32_eq] at *
  omega

lemma rotl32_lt (x d : ℕ) (hx : x < w32) (hd : d ≤ 32) : rotl32 x d < w32 := by
  have hp : 0 < 2 ^ (32 - d) := Nat.two_pow_pos _
  have hsplit : 2 ^ (32 - d) * 2 ^ d = w32 := by
    rw [← pow_add, Nat.sub_add_cancel hd]; rfl
  have ha : x % 2 ^ (32 - d) < 2 ^ (32 - d) := Nat.mod_lt _ hp
  have hb : x / 2 ^ (32 - d) < 2 ^ d := by
    rw [Nat.div_lt_iff_lt_mul hp, mul_comm (2 ^ d), hsplit]
    exact hx
  unfold rotl32
  calc x % 2 ^ (32 - d) * 2 ^ d + x / 2 ^ (32 - d)
      < (x % 2 ^ (32 - d) + 1) * 2 ^ d := by
        rw [add_mul, one_mul]
        omega
    _ ≤ 2 ^ (32 - d) * 2 ^ d := Nat.mul_le_mul_right _ (Nat.succ_le_of_lt ha)
    _ = w32 := hsplit

lemma rotl32_rotl32 (x d : ℕ) (hx : x < w32) (hd0 : 0 < d) (hd : d < 32) :
    rotl32 (rotl32 x d) (32 - d) = x := by
  have hdd : 32 - (32 - d) = d := by omega
  have hp : 0 < 2 ^ (32 - d) := Nat.two_pow_pos _
  have hb : x / 2 ^ (32 - d) < 2 ^ d := by
    rw [Nat.div_lt_iff_lt_mul hp]
    calc x < w32 := hx
      _ = 2 ^ d * 2 ^ (32 - d) := by
          rw [← pow_add, Nat.add_sub_cancel' (le_of_lt hd)]; rfl
  have hsum : x % 2 ^ (32 - d) * 2 ^ d + x / 2 ^ (32 - d)
      = 2 ^ d * (x % 2 ^ (32 - d)) + x / 2 ^ (32 - d) := by ring
  unfold rotl32
  rw [hdd, hsum, Nat.mul_add_mod, Nat.mul_add_div (Nat.two_pow_pos d),
    Nat.mod_eq_of_lt hb, Nat.div_eq_of_lt hb, add_zero,
    mul_comm (x / 2 ^ (32 - d))]
  exact Nat.div_add_mod x (2 ^ (32 - d))

lemma tfRound_lt (d : ℕ) (v : ℕ × ℕ) (hd : d ≤ 32) (h2 : v.2 < w32) :
    (tfRound d v).1 < w32 ∧ (tfRound d v).2 < w32 := by
  refine ⟨add32_lt _ _, ?_⟩
  show add32 v.1 v.2 ^^^ rotl32 v.2 d < w32
  exact Nat.xor_lt_two_pow (add32_lt v.1 v.2) (rotl32_lt v.2 d h2 hd)

lemma tfRoundInv_tfRound (d : ℕ) (v : ℕ × ℕ) (hd0 : 0 < d) (hd : d < 32)
    (h1 : v.1 < w32) (h2 : v.2 < w32) : tfRoundInv d (tfRound d v) = v := by
  dsimp only [tfRound, tfRoundInv]
  rw [← Nat.xor_assoc, Nat.xor_self, Nat.zero_xor,
    rotl32_rotl32 v.2 d h2 hd0 hd, sub32_add32 v.1 v.2 h1]

lemma mix4_lt (d1 d2 d3 d4 : ℕ) (v : ℕ × ℕ) (h1 : d1 ≤ 32) (h2 : d2 ≤ 32)
    (h3 : d3 ≤ 32) (h4 : d4 ≤ 32) (hv : v.2 < w32) :
    (mix4 d1 d2 d3 d4 v).1 < w32 ∧ (mix4 d1 d2 d3 d4 v).2 < w32 := by
  have t1 := tfRound_lt d1 v h1 hv
  have t2 := tfRound_lt d2 _ h2 t1.2
  have t3 := tfRound_lt d3 _ h3 t2.2
  exact tfRound_lt d4 _ h4 t3.2

lemma mix4Inv_mix4 (d1 d2 d3 d4 : ℕ) (v : ℕ × ℕ)
    (hd1 : 0 < d1) (hd1' : d1 < 32) (hd2 : 0 < d2) (hd2' : d2 < 32)
    (hd3 : 0 < d3) (hd3' : d3 < 32) (hd4 : 0 < d4) (hd4' : d4 < 32)
    (h1 : v.1 < w32) (h2 : v.2 < w32) :
    mix4Inv d1 d2 d3 d4 (mix4 d1 d2 d3 d4 v) = v := by
  have t1 := tfRound_lt d1 v (le_of_lt hd1') h2
  have t2 := tfRound_lt d2 _ (le_of_lt hd2') t1.2
  have t3 := tfRound_lt d3 _ (le_of_lt hd3') t2.2
  unfold mix4 mix4Inv
  rw [tfRoundInv_tfRound d4 _ hd4 hd4' t3.1 t3.2,
    tfRoundInv_tfRound d3 _ hd3 hd3' t2.1 t2.2,
    tfRoundInv_tfRound d2 _ hd2 hd2' t1.1 t1.2,
    tfRoundInv_tfRound d1 _ hd1 hd1' h1 h2]

lemma inject_lt (a b : ℕ) (v : ℕ × ℕ) :
    (inject a b v).1 < w32 ∧ (inject a b v).2 < w32 :=
  ⟨add32_lt _ _, add32_lt _ _⟩

lemma extract_inject (a b : ℕ) (v : ℕ × ℕ) (h1 : v.1 < w32) (h2 : v.2 < w32) :
    extract a b (inject a b v) = v := by
  dsimp only [extract, inject]
  rw [sub32_add32 v.1 a h1, sub32_add32 v.2 b h2]

lemma threefry2x32Inv_threefry2x32 (key x : ℕ × ℕ)
    (hx1 : x.1 < w32) (hx2 : x.2 < w32) :
    threefry2x32Inv key (threefry2x32 key x) = x := by
  dsimp only [threefry2x32, threefry2x32Inv]
  set k2 := key.1 ^^^ key.2 ^^^ 0x1BD11BDA with hk2
  set v1 := inject key.1 key.2 x with hv1
  set w1 := mix4 13 15 26 6 v1 with hw1
  set v2 := inject key.2 (add32 k2 1) w1 with hv2
  set w2 := mix4 17 29 16 24 v2 with hw2
  set v3 := inject k2 (add32 key.1 2) w2 with hv3
  set w3 := mix4 13 15 26 6 v3 with hw3
  set v4 := inject key.1 (add32 key.2 3) w3 with hv4
  set w4 := mix4 17 29 16 24 v4 with hw4
  set v5 := inject key.2 (add32 k2 4) w4 with hv5
  set w5 := mix4 13 15 26 6 v5 with hw5
  have B1 : v1.1 < w32 ∧ v1.2 < w32 := by rw [hv1]; exact inject_lt _ _ _
  have Bw1 : w1.1 < w32 ∧ w1.2 < w32 := by
    rw [hw1]
    exact mix4_lt _ _ _ _ _ (by norm_num) (by norm_num) (by norm_num)
      (by norm_num) B1.2
  have B2 : v2.1 < w32 ∧ v2.2 < w32 := by rw [hv2]; exact inject_lt _ _ _
  have Bw2 : w2.1 < w32 ∧ w2.2 < w32 := by
    rw [hw2]
    exact mix4_lt _ _ _ _ _ (by norm_num) (by norm_num) (by norm_num)
      (by norm_num) B2.2
  have B3 : v3.1 < w32 ∧ v3.2 < w32 := by rw [hv3]; exact inject_lt _ _ _
  have Bw3 : w3.1 < w32 ∧ w3.2 < w32 := by
    rw [hw3]
    exact mix4_lt _ _ _ _ _ (by norm_num) (by norm_num) (by norm_num)
      (by norm_num) B3.2
  have B4 : v4.1 < w32 ∧ v4.2 < w32 := by rw [hv4]; exact inject_lt _ _ _
  have Bw4 : w4.1 < w32 ∧ w4.2 < w32 := by
    rw [hw4]
    exact mix4_lt _ _ _ _ _ (by norm_num) (by norm_num) (by norm_num)
      (by norm_num) B4.2
  have B5 : v5.1 < w32 ∧ v5.2 < w32 := by rw [hv5]; exact inject_lt _ _ _
  have Bw5 : w5.1 < w32 ∧ w5.2 < w32 := by
    rw [hw5]
    exact mix4_lt _ _ _ _ _ (by norm_num) (by norm_num) (by norm_num)
      (by norm_num) B5.2
  rw [extract_inject k2 (add32 key.1 5) w5 Bw5.1 Bw5.2]
  rw [hw5, mix4Inv_mix4 13 15 26 6 v5 (by norm_num) (by norm_num) (by norm_num)
    (by norm_num) (by norm_num) (by norm_num) (by norm_num) (by norm_num)
    B5.1 B5.2]
  rw [hv5, extract_inject key.2 (add32 k2 4) w4 Bw4.1 Bw4.2]
  rw [hw4, mix4Inv_mix4 17 29 16 24 v4 (by norm_num) (by norm_num) (by norm_num)
    (by norm_num) (by norm_num) (by norm_num) (by norm_num) (by norm_num)
    B4.1 B4.2]
  rw [hv4, extract_inject key.1 (add32 key.2 3) w3 Bw3.1 Bw3.2]
  rw [hw3, mix4Inv_mix4 13 15 26 6 v3 (by norm_num) (by norm_num) (by norm_num)
    (by norm_num) (by norm_num) (by norm_num) (by norm_num) (by norm_num)
    B3.1 B3.2]
  rw [hv3, extract_inject k2 (add32 key.1 2) w2 Bw2.1 Bw2.2]
  rw [hw2, mix4Inv_mix4 17 29 16 24 v2 (by norm_num) (by norm_num) (by norm_num)
    (by norm_num) (by norm_num) (by norm_num) (by norm_num) (by norm_num)
    B2.1 B2.2]
  rw [hv2, extract_inject key.2 (add32 k2 1) w1 Bw1.1 Bw1.2]
  rw [hw1, mix4Inv_mix4 13 15 26 6 v1 (by norm_num) (by norm_num) (by norm_num)
    (by norm_num) (by norm_num) (by norm_num) (by norm_num) (by norm_num)
    B1.1 B1.2]
  rw [hv1, extract_inject key.1 key.2 x hx1 hx2]

/-- The Threefry cipher is injective in its counter argument (for any key):
it is a permutation of the 64-bit block. -/
lemma threefry2x32_inj (key : ℕ × ℕ) {x y : ℕ × ℕ}
    (hx1 : x.1 < w32) (hx2 : x.2 < w32) (hy1 : y.1 < w32) (hy2 : y.2 < w32)
    (h : threefry2x32 key x = threefry2x32 key y) : x = y := by
  have hx := threefry2x32Inv_threefry2x32 key x hx1 hx2
  have hy := threefry2x32Inv_threefry2x32 key y hy1 hy2
  rw [← hx, ← hy, h]

/-- C3: For a fixed master seed, the seeds derived by folding the reset
counter into the master key are pairwise distinct: for every pair of
distinct uint32 counter values i and j,
`fold_in master i ≠ fold_in master j`.  (The counter is converted to
uint32 by `fold_in`, so its domain is `0 ≤ i < 2 ^ 32`.) -/
theorem fold_in_pairwise_distinct (key : ℕ × ℕ) (i j : ℕ)
    (hi : i < w32) (hj : j < w32) (hij : i ≠ j) :
    fold_in key i ≠ fold_in key j := by
  intro h
  unfold fold_in at h
  have hseed : ∀ n : ℕ, n < w32 → threefry_seed (n % w32) = (0, n) := by
    intro n hn
    unfold threefry_seed
    rw [Nat.mod_eq_of_lt hn, Nat.div_eq_of_lt hn, Nat.zero_mod,
      Nat.mod_eq_of_lt hn]
  rw [hseed i hi, hseed j hj] at h
  have heq : ((0 : ℕ), i) = ((0 : ℕ), j) :=
    threefry2x32_inj key w32_pos hi w32_pos hj h
  exact hij (congrArg Prod.snd heq)

/-- Witness for C3: the seeds of the first two resets of the session
(master key `PRNGKey 42`, counters 0 and 1) differ. -/
theorem fold_in_pairwise_distinct_witness :
    fold_in master_key 0 ≠ fold_in master_key 1 :=
  fold_in_pairwise_distinct master_key 0 1 (by norm_num [w32])
    (by norm_num [w32]) (by norm_num)

/-! ## Action translation (play_pacman_ui.py lines 113–127)

`get_human_action` returns JAXAtariAction constants
(NOOP=0, FIRE=1, UP=2, RIGHT=3, LEFT=4, DOWN=5); the Pacman environment
uses 0=NOOP, 1=UP, 2=RIGHT, 3=LEFT, 4=DOWN.  The dict
`{0: 0, 2: 1, 3: 2, 4: 3, 5: 4}` with `.get(action_int, 0)` is a total
lookup defaulting to NOOP. -/

/-- JAXAtariAction constant NOOP. -/
def JAXAtariAction_NOOP : ℤ := 0

/-- JAXAtariAction constant FIRE. -/
def JAXAtariAction_FIRE : ℤ := 1

/-- JAXAtariAction constant UP. -/
def JAXAtariAction_UP : ℤ := 2

/-- JAXAtariAction constant RIGHT. -/
def JAXAtariAction_RIGHT : ℤ := 3

/-- JAXAtariAction constant LEFT. -/
def JAXAtariAction_LEFT : ℤ := 4

/-- JAXAtariAction constant DOWN. -/
def JAXAtariAction_DOWN : ℤ := 5

/-- Pacman action NOOP. -/
def Pacman_NOOP : ℕ := 0

/-- Pacman action UP. -/
def Pacman_UP : ℕ := 1

/-- Pacman action RIGHT. -/
def Pacman_RIGHT : ℕ := 2

/-- Pacman action LEFT. -/
def Pacman_LEFT : ℕ := 3

/-- Pacman action DOWN. -/
def Pacman_DOWN : ℕ := 4

/-- `action_map.get(action_int, 0)`: the fixed translation table
`{0: 0, 2: 1, 3: 2, 4: 3, 5: 4}` with default 0 (NOOP). -/
def action_map (a : ℤ) : ℕ :=
  if a = 0 then 0
  else if a = 2 then 1
  else if a = 3 then 2
  else if a = 4 then 3
  else if a = 5 then 4
  else 0

variable {S O F : Type}

/-! ## The session control loop (play_pacman_ui.py)

The environment produced by `jaxatari.make("pacman")` is an opaque
collaborator: a record of pure functions.  `S` is the opaque environment
state type, `O` the observation type, `F` the rendered frame type.
`render` returns `Except String F` because a render call may raise, which
is one of the behaviours under test (claims C7/C8); `info`, the opaque
diagnostic bag of `step`, is not modelled (the loop discards it).
`score` models the callerʼs read `int(obs.score) if hasattr(obs, 'score')
else 0`. -/

/-- Result of one environment step: `obs, state, reward, done` (the `info`
bag is dropped by the loop). Rewards are Python floats, modelled as `ℚ`. -/
structure StepResult (S O : Type) where
  obs : O
  state : S
  reward : ℚ
  done : Bool
deriving DecidableEq

/-- The opaque environment collaborator. -/
structure Env (S O F : Type) where
  reset : ℕ × ℕ → O × S
  step : S → ℕ → StepResult S O
  render : S → Except String F
  score : O → ℤ

/-- The mutable session state of `main`: the variables
`obs, state, reset_counter, total_return, pause, running`. -/
structure GameState (S O : Type) where
  obs : O
  state : S
  reset_counter : ℕ
  total_return : ℚ
  pause : Bool
  running : Bool
deriving DecidableEq

/-- Observable effects of one pass through the loop body, in program
order: polling the action source, calling `step`, the game-over report
(printed score and total reward), calling `reset` with a derived key, and
a successful render of a state. -/
inductive Event (S : Type) where
  | polled
  | stepped (s : S) (a : ℕ)
  | gameOver (score : ℤ) (ret : ℚ)
  | resetCalled (key : ℕ × ℕ)
  | rendered (s : S)
deriving DecidableEq

/-- The pygame events the loop body reacts to (lines 81–97): window close,
Escape, P (pause toggle), R (manual reset); anything else is ignored. -/
inductive PEvent where
  | quit
  | keyEscape
  | keyP
  | keyR
  | other
deriving DecidableEq

/-- Handling of a single pygame event (lines 82–97).  Note the `continue`
statements there only skip to the next *event*; they do not end the loop
iteration. -/
def handleEvent (env : Env S O F) (mk : ℕ × ℕ) (g : GameState S O) :
    PEvent → GameState S O × List (Event S)
  | .quit => ({ g with running := false }, [])
  | .keyEscape => ({ g with running := false }, [])
  | .keyP => ({ g with pause := !g.pause }, [])
  | .keyR =>
      let key := fold_in mk g.reset_counter
      let rs := env.reset key
      ({ g with obs := rs.1, state := rs.2,
                reset_counter := g.reset_counter + 1, total_return := 0 },
       [.resetCalled key])
  | .other => (g, [])

/-- The event loop `for event in pygame.event.get()` (line 81). -/
def handleEvents (env : Env S O F) (mk : ℕ × ℕ) (g : GameState S O) :
    List PEvent → GameState S O × List (Event S)
  | [] => (g, [])
  | e :: rest =>
      let r1 := handleEvent env mk g e
      let r2 := handleEvents env mk r1.1 rest
      (r2.1, r1.2 ++ r2.2)

/-- Outcome of the remainder of a loop iteration: the session variables
afterwards, the effect trace, and `some e` when an uncaught exception `e`
propagates (which aborts the loop). -/
structure TickResult (S O : Type) where
  g : GameState S O
  trace : List (Event S)
  err : Option String
deriving DecidableEq

/-- The loop body after event handling (lines 99–151).  `a?` is what
`get_human_action()` would produce this tick: `some a` for an action value,
`none` when it raises `SystemExit` (the quit signal, caught at lines
109–111).  While paused (lines 99–104) the unchanged state is rendered and
nothing else happens.  Otherwise: poll, translate the action, step the
environment, accumulate the reward, on `done` report and auto-reset
(lines 141–146), and finally render the current state (lines 148–150). -/
def tickAfterEvents (env : Env S O F) (mk : ℕ × ℕ) (g : GameState S O)
    (a? : Option ℤ) : TickResult S O :=
  if g.pause then
    match env.render g.state with
    | .error e => ⟨g, [], some e⟩
    | .ok _ => ⟨g, [.rendered g.state], none⟩
  else
    match a? with
    | none => ⟨{ g with running := false }, [.polled], none⟩
    | some a =>
      let pa := action_map a
      let res := env.step g.state pa
      let ret1 := g.total_return + res.reward
      if res.done then
        let key := fold_in mk g.reset_counter
        let rs := env.reset key
        let g1 : GameState S O :=
          { obs := rs.1, state := rs.2,
            reset_counter := g.reset_counter + 1, total_return := 0,
            pause := g.pause, running := g.running }
        match env.render g1.state with
        | .error e =>
            ⟨g1, [.polled, .stepped g.state pa,
                  .gameOver (env.score res.obs) ret1, .resetCalled key],
             some e⟩
        | .ok _ =>
            ⟨g1, [.polled, .stepped g.state pa,
                  .gameOver (env.score res.obs) ret1, .resetCalled key,
                  .rendered g1.state],
             none⟩
      else
        let g1 := { g with obs := res.obs, state := res.state,
                           total_return := ret1 }
        match env.render g1.state with
        | .error e => ⟨g1, [.polled, .stepped g.state pa], some e⟩
        | .ok _ =>
            ⟨g1, [.polled, .stepped g.state pa, .rendered g1.state], none⟩

/-- What one tick consumes from the outside world: the pending pygame
events and the human-action poll result. -/
structure TickInput where
  events : List PEvent
  action : Option ℤ

/-- One full iteration of `while running` (lines 79–151): event handling
followed by the pause/step/render body. -/
def loopIter (env : Env S O F) (mk : ℕ × ℕ) (g : GameState S O)
    (inp : TickInput) : TickResult S O :=
  let r1 := handleEvents env mk g inp.events
  let r2 := tickAfterEvents env mk r1.1 inp.action
  ⟨r2.g, r1.2 ++ r2.trace, r2.err⟩

/-- The `while running` loop over a finite schedule of tick inputs.  The
loop stops when `running` becomes false; an uncaught exception ends it
immediately and is propagated in the third component. -/
def runTicks (env : Env S O F) (mk : ℕ × ℕ) (g : GameState S O) :
    List TickInput → GameState S O × List (Event S) × Option String
  | [] => (g, [], none)
  | inp :: rest =>
      if g.running then
        let r := loopIter env mk g inp
        match r.err with
        | some e => (r.g, r.trace, some e)
        | none =>
            let r2 := runTicks env mk r.g rest
            (r2.1, r.trace ++ r2.2.1, r2.2.2)
      else (g, [], none)

/-- Session setup (lines 48–73): `reset_counter = 0`, the initial reset
with seed `fold_in(master_key, 0)`, `reset_counter += 1`, an initial
render (line 60, to size the window — an exception there propagates out of
`main`), then `pause = False`, `total_return = 0.0`, `running = True`. -/
def initSession (env : Env S O F) (mk : ℕ × ℕ) :
    Except String (GameState S O × List (Event S)) :=
  let key := fold_in mk 0
  let rs := env.reset key
  match env.render rs.2 with
  | .error e => .error e
  | .ok _ =>
      .ok ({ obs := rs.1, state := rs.2, reset_counter := 1,
             total_return := 0, pause := false, running := true },
           [.resetCalled key])

/-- Report of a normally-returning `main()`: whether the game loop was
entered, and whether the env-construction error branch (lines 37–41,
which reports and then `return`s from `main`) ran. -/
structure MainReport where
  loopEntered : Bool
  setupErrorReported : Bool
deriving DecidableEq

/-- The body of `main()` (lines 32–153): environment construction is
`envC`; on failure the caught `except` branch reports and *returns
normally* (line 41).  Exceptions escaping setup or the loop propagate as
`.error`. -/
def mainModel (envC : Except String (Env S O F)) (mk : ℕ × ℕ)
    (inputs : List TickInput) : Except String MainReport :=
  match envC with
  | .error _ => .ok ⟨false, true⟩
  | .ok env =>
      match initSession env mk with
      | .error e => .error e
      | .ok (g0, _) =>
          match runTicks env mk g0 inputs with
          | (_, _, some e) => .error e
          | (_, _, none) => .ok ⟨true, false⟩

/-- The module level (lines 156–171): `main()` runs inside
`try: … except Exception: print(ERROR); sys.exit(1)`.  Result: the process
exit status, and the `MainReport` when `main` returned normally (exit 0).
An `.error` from `main` is reported by the module-level handler and turns
into exit status 1. -/
def moduleRun (envC : Except String (Env S O F)) (mk : ℕ × ℕ)
    (inputs : List TickInput) : ℕ × Option MainReport :=
  match mainModel envC mk inputs with
  | .ok r => (0, some r)
  | .error _ => (1, none)

/-! ## The scripted action source (run_pacman.py line 54) -/

/-- `action = (step // 10) % 4 + 1`: the scripted policy of the test
runner, a pure function of the step index cycling through the four
directions in blocks of 10 steps. -/
def scripted_action (step : ℕ) : ℕ := step / 10 % 4 + 1

/-! ## Claims -/

/-- C6: the action translation is total and exactly reproduces the fixed
table NOOP→NOOP, UP→UP, RIGHT→RIGHT, LEFT→LEFT, DOWN→DOWN; every source
value outside the table (FIRE, 99, …) maps to the environmentʼs NOOP,
never an error. -/
theorem action_map_is_fixed_table_with_noop_default :
    action_map JAXAtariAction_NOOP = Pacman_NOOP ∧
    action_map JAXAtariAction_UP = Pacman_UP ∧
    action_map JAXAtariAction_RIGHT = Pacman_RIGHT ∧
    action_map JAXAtariAction_LEFT = Pacman_LEFT ∧
    action_map JAXAtariAction_DOWN = Pacman_DOWN ∧
    ∀ a : ℤ, a ≠ JAXAtariAction_NOOP → a ≠ JAXAtariAction_UP →
      a ≠ JAXAtariAction_RIGHT → a ≠ JAXAtariAction_LEFT →
      a ≠ JAXAtariAction_DOWN → action_map a = Pacman_NOOP := by
  refine ⟨rfl, rfl, rfl, rfl, rfl, ?_⟩
  intro a h0 h2 h3 h4 h5
  simp only [JAXAtariAction_NOOP, JAXAtariAction_UP, JAXAtariAction_RIGHT,
    JAXAtariAction_LEFT, JAXAtariAction_DOWN] at h0 h2 h3 h4 h5
  simp [action_map, Pacman_NOOP, h0, h2, h3, h4, h5]

/-- Witness for C6: action code 99 and FIRE both translate to NOOP. -/
theorem action_map_is_fixed_table_with_noop_default_witness :
    action_map 99 = Pacman_NOOP ∧
    action_map JAXAtariAction_FIRE = Pacman_NOOP :=
  ⟨action_map_is_fixed_table_with_noop_default.2.2.2.2.2 99 (by decide)
      (by decide) (by decide) (by decide) (by decide),
   action_map_is_fixed_table_with_noop_default.2.2.2.2.2 JAXAtariAction_FIRE
      (by decide) (by decide) (by decide) (by decide) (by decide)⟩

/-- C9: the scripted action source is a pure function of the step index
with cycling block size 10: indices 0..9 all yield the same action, and
the action at index 10 differs from the action at index 9. -/
theorem scripted_action_constant_block_then_changes :
    (∀ i, i < 10 → scripted_action i = scripted_action 0) ∧
    scripted_action 10 ≠ scripted_action 9 := by decide

/-- Witness for C9: instantiate the bounded quantifier at index 3. -/
theorem scripted_action_constant_block_then_changes_witness :
    scripted_action 3 = scripted_action 0 :=
  scripted_action_constant_block_then_changes.1 3 (by decide)

/-- C2: every reset call — the manual one on the R key (lines 92–97) and
the automatic one on done=true (lines 141–146) — sets total_return to 0
and increments reset_counter by exactly 1, in every session state. -/
theorem reset_zeroes_reward_and_increments_counter {S O F : Type} :
    (∀ (env : Env S O F) (mk : ℕ × ℕ) (g : GameState S O),
      (handleEvent env mk g .keyR).1.reset_counter = g.reset_counter + 1 ∧
      (handleEvent env mk g .keyR).1.total_return = 0) ∧
    (∀ (env : Env S O F) (mk : ℕ × ℕ) (g : GameState S O) (a : ℤ),
      g.pause = false → (env.step g.state (action_map a)).done = true →
      (tickAfterEvents env mk g (some a)).g.reset_counter =
        g.reset_counter + 1 ∧
      (tickAfterEvents env mk g (some a)).g.total_return = 0) := by
  constructor
  · intro env mk g
    exact ⟨rfl, rfl⟩
  · intro env mk g a hp hdone
    simp only [tickAfterEvents, hp, Bool.false_eq_true, if_false, hdone,
      if_true]
    split <;> exact ⟨rfl, rfl⟩

/-- A concrete toy environment used by witnesses: every step ends the
episode in terminal state 7 with reward 5; reset always lands in state 3;
rendering always succeeds; the observation score reads 120. -/
def envDone : Env ℕ ℕ Unit :=
  { reset := fun _ => (0, 3),
    step := fun _ _ => ⟨0, 7, 5, true⟩,
    render := fun _ => .ok (),
    score := fun _ => 120 }

/-- A concrete session state: running, unpaused, cumulative reward 10,
two resets so far. -/
def gTen : GameState ℕ ℕ :=
  { obs := 0, state := 1, reset_counter := 2, total_return := 10,
    pause := false, running := true }

/-- Witness for C2: on `envDone` from `gTen`, both the manual R-key reset
and the automatic reset on done zero the cumulative reward and bump the
reset counter from 2 to 3. -/
theorem reset_zeroes_reward_and_increments_counter_witness :
    ((handleEvent envDone master_key gTen .keyR).1.reset_counter = 3 ∧
     (handleEvent envDone master_key gTen .keyR).1.total_return = 0) ∧
    ((tickAfterEvents envDone master_key gTen (some 2)).g.reset_counter = 3 ∧
     (tickAfterEvents envDone master_key gTen (some 2)).g.total_return = 0) :=
  ⟨reset_zeroes_reward_and_increments_counter.1 envDone master_key gTen,
   reset_zeroes_reward_and_increments_counter.2 envDone master_key gTen 2
     rfl rfl⟩

/-- C1: when a step returns done=true with reward r while the cumulative
reward is c, the loop reports a final cumulative reward of c + r (the
game-over print, line 142) and then auto-resets: total_return becomes 0
and reset_counter increments by exactly 1 (lines 143–146). -/
theorem done_reports_final_reward_then_resets {S O F : Type}
    (env : Env S O F) (mk : ℕ × ℕ) (g : GameState S O) (a : ℤ)
    (res : StepResult S O)
    (hp : g.pause = false)
    (hst : env.step g.state (action_map a) = res)
    (hdone : res.done = true) :
    Event.gameOver (env.score res.obs) (g.total_return + res.reward) ∈
      (tickAfterEvents env mk g (some a)).trace ∧
    (tickAfterEvents env mk g (some a)).g.total_return = 0 ∧
    (tickAfterEvents env mk g (some a)).g.reset_counter =
      g.reset_counter + 1 := by
  subst hst
  simp only [tickAfterEvents, hp, Bool.false_eq_true, if_false, hdone,
    if_true]
  split <;> simp

/-- Witness for C1: from cumulative reward 10 and a done step with reward
5, the tick reports 10 + 5 and resets to 0, counter 2 → 3. -/
theorem done_reports_final_reward_then_resets_witness :
    Event.gameOver 120 (10 + 5) ∈
      (tickAfterEvents envDone master_key gTen (some 2)).trace ∧
    (tickAfterEvents envDone master_key gTen (some 2)).g.total_return = 0 ∧
    (tickAfterEvents envDone master_key gTen (some 2)).g.reset_counter = 3 :=
  done_reports_final_reward_then_resets envDone master_key gTen 2
    ⟨0, 7, 5, true⟩ rfl rfl rfl

/-- C4: in a tick taken while paused, the part of the loop iteration after
event handling (lines 99–104, the pause branch) leaves the session state —
environment state, total_return, reset_counter — unchanged, calls neither
step nor the action source, and still renders the unchanged state. -/
theorem paused_tick_renders_unchanged_state {S O F : Type}
    (env : Env S O F) (mk : ℕ × ℕ) (g : GameState S O) (a? : Option ℤ)
    (f : F) (hp : g.pause = true) (hr : env.render g.state = .ok f) :
    tickAfterEvents env mk g a? = ⟨g, [Event.rendered g.state], none⟩ ∧
    (∀ s a, Event.stepped s a ∉ (tickAfterEvents env mk g a?).trace) ∧
    Event.polled ∉ (tickAfterEvents env mk g a?).trace := by
  have h : tickAfterEvents env mk g a? = ⟨g, [Event.rendered g.state], none⟩ := by
    simp only [tickAfterEvents, hp, if_true, hr]
  refine ⟨h, ?_, ?_⟩ <;> rw [h] <;> simp

/-- Witness for C4: a paused tick on the toy environment is inert. -/
theorem paused_tick_renders_unchanged_state_witness :
    tickAfterEvents envDone master_key
        { gTen with pause := true } (some 2) =
      ⟨{ gTen with pause := true },
       [Event.rendered ({ gTen with pause := true } : GameState ℕ ℕ).state],
       none⟩ :=
  (paused_tick_renders_unchanged_state envDone master_key
    { gTen with pause := true } (some 2) () rfl rfl).1

/-- C5 (divergence): in a tick whose step ends the episode, the code
resets *before* rendering (lines 141–150), so the only rendered state is
the freshly reset one (state 3 of `envDone`); the terminal state produced
by the step (state 7) is never rendered.  This contradicts the claim that
the terminal frame is observable. -/
theorem terminal_state_never_rendered_on_done :
    (envDone.step gTen.state (action_map 0)).done = true ∧
    (envDone.step gTen.state (action_map 0)).state = 7 ∧
    Event.rendered 7 ∉ (tickAfterEvents envDone master_key gTen (some 0)).trace ∧
    Event.rendered 3 ∈ (tickAfterEvents envDone master_key gTen (some 0)).trace := by
  decide

/-- C7 (counterexample): when environment construction fails, `main`
catches the exception, reports it, and *returns normally* (lines 34–41),
so the process exits with status 0 — not a non-zero status as claimed.
The loop is indeed never entered and the failure is reported. -/
theorem env_construction_failure_exits_with_zero :
    moduleRun (S := ℕ) (O := ℕ) (F := Unit)
      (.error "env construction failed") master_key [] =
      (0, some ⟨false, true⟩) := rfl

/-- C7 (amended): if the environment fails to construct during setup, the
failure is reported and the main loop is never entered, but the process
terminates with exit status 0: the error is caught inside `main`, which
returns normally. -/
theorem env_construction_failure_reported_loop_not_entered {S O F : Type}
    (e : String) (mk : ℕ × ℕ) (inputs : List TickInput) :
    mainModel (S := S) (O := O) (F := F) (.error e) mk inputs =
      .ok ⟨false, true⟩ ∧
    moduleRun (S := S) (O := O) (F := F) (.error e) mk inputs =
      (0, some ⟨false, true⟩) :=
  ⟨rfl, rfl⟩

/-- A concrete environment whose render fails on every state except the
initial one: reset lands in state 0 (renders fine, so setup succeeds),
each step moves to state s + 1, and rendering any non-zero state raises. -/
def envBadRender : Env ℕ ℕ Unit :=
  { reset := fun _ => (0, 0),
    step := fun s _ => ⟨0, s + 1, 0, false⟩,
    render := fun s => if s = 0 then .ok () else .error "render failed",
    score := fun _ => 0 }

/-- The session state right after `initSession envBadRender master_key`. -/
def gBad : GameState ℕ ℕ :=
  { obs := 0, state := 0, reset_counter := 1, total_return := 0,
    pause := false, running := true }

/-- C8 (counterexample): a render exception in the steady-state loop is
*not* caught there: with two ticks scheduled, the first tickʼs render
failure aborts the loop (only one `stepped` event ever happens — the
second tick never runs), the exception propagates out of `main`, and the
module-level handler exits the process with status 1.  The session does
not continue to the next tick. -/
theorem render_exception_kills_session :
    initSession envBadRender master_key =
      .ok (gBad, [Event.resetCalled (fold_in master_key 0)]) ∧
    (runTicks envBadRender master_key gBad
        [⟨[], some 2⟩, ⟨[], some 2⟩]).2.2 = some "render failed" ∧
    (runTicks envBadRender master_key gBad
        [⟨[], some 2⟩, ⟨[], some 2⟩]).2.1 =
      [Event.polled, Event.stepped 0 1] ∧
    moduleRun (.ok envBadRender) master_key [⟨[], some 2⟩, ⟨[], some 2⟩] =
      (1, none) :=
  ⟨rfl, rfl, rfl, rfl⟩

/-- C8 (amended): a render exception during the steady-state loop
propagates: the raising iteration is the last one processed (the rest of
the input schedule is dropped), `main` re-raises, and the module-level
handler reports the error and exits with status 1 — the loop does not
continue and the session is lost. -/
theorem render_exception_propagates_and_exits_one {S O F : Type}
    (env : Env S O F) (mk : ℕ × ℕ) (g g0 : GameState S O)
    (t0 : List (Event S)) (inp : TickInput) (rest inputs : List TickInput)
    (e : String) :
    (g.running = true → (loopIter env mk g inp).err = some e →
      runTicks env mk g (inp :: rest) =
        ((loopIter env mk g inp).g, (loopIter env mk g inp).trace,
         some e)) ∧
    (initSession env mk = .ok (g0, t0) →
      (runTicks env mk g0 inputs).2.2 = some e →
      moduleRun (.ok env) mk inputs = (1, none)) := by
  constructor
  · intro hrun herr
    simp only [runTicks, hrun, if_true, herr]
  · intro hinit hrt
    have hm : mainModel (.ok env) mk inputs = .error e := by
      rcases h : runTicks env mk g0 inputs with ⟨gf, tf, errf⟩
      rw [h] at hrt
      dsimp at hrt
      subst hrt
      simp [mainModel, hinit, h]
    simp [moduleRun, hm]

/-- Witness for C8 (amended): on `envBadRender` the single scheduled tick
raises, the loop returns it as final, and the process exits 1. -/
theorem render_exception_propagates_and_exits_one_witness :
    runTicks envBadRender master_key gBad [⟨[], some 2⟩] =
      ((loopIter envBadRender master_key gBad ⟨[], some 2⟩).g,
       (loopIter envBadRender master_key gBad ⟨[], some 2⟩).trace,
       some "render failed") ∧
    moduleRun (.ok envBadRender) master_key [⟨[], some 2⟩] = (1, none) :=
  ⟨(render_exception_propagates_and_exits_one envBadRender master_key gBad
      gBad [] ⟨[], some 2⟩ [] [] "render failed").1 rfl rfl,
   (render_exception_propagates_and_exits_one envBadRender master_key gBad
      gBad [Event.resetCalled (fold_in master_key 0)] ⟨[], some 2⟩ []
      [⟨[], some 2⟩] "render failed").2 rfl rfl⟩

/-! ## C10: the reset counter counts the reset calls -/

/-- The PRNG keys passed to `env.reset`, in trace order. -/
def resetKeys {S : Type} (t : List (Event S)) : List (ℕ × ℕ) :=
  t.filterMap fun e =>
    match e with
    | .resetCalled k => some k
    | _ => none

/-- Seed-derivation invariant of a trace fragment: while the counter goes
from `c` to `cʼ`, the trace performs exactly the reset calls whose keys
are the consecutively derived `fold_in mk c, …, fold_in mk (cʼ - 1)`. -/
def SeedInv {S : Type} (mk : ℕ × ℕ) (c c' : ℕ) (t : List (Event S)) : Prop :=
  c ≤ c' ∧ resetKeys t = (List.range' c (c' - c)).map (fold_in mk)

lemma seedInv_nil {S : Type} (mk : ℕ × ℕ) (c : ℕ) :
    SeedInv (S := S) mk c c [] :=
  ⟨le_refl _, by simp [resetKeys]⟩

lemma seedInv_append {S : Type} (mk : ℕ × ℕ) {c c' c'' : ℕ}
    {t1 t2 : List (Event S)} (h1 : SeedInv mk c c' t1)
    (h2 : SeedInv mk c' c'' t2) : SeedInv mk c c'' (t1 ++ t2) := by
  obtain ⟨hc1, hk1⟩ := h1
  obtain ⟨hc2, hk2⟩ := h2
  refine ⟨le_trans hc1 hc2, ?_⟩
  unfold resetKeys at *
  rw [List.filterMap_append, hk1, hk2, ← List.map_append]
  have e1 : List.range' c' (c'' - c') =
      List.range' (c + (c' - c)) (c'' - c') := by
    congr 1
    omega
  have e2 : c'' - c' + (c' - c) = c'' - c := by omega
  rw [e1, List.range'_append_1, e2]

lemma handleEvent_seedInv {S O F : Type} (env : Env S O F) (mk : ℕ × ℕ)
    (g : GameState S O) (e : PEvent) :
    SeedInv mk g.reset_counter (handleEvent env mk g e).1.reset_counter
      (handleEvent env mk g e).2 := by
  cases e <;>
    simp [handleEvent, SeedInv, resetKeys, Nat.add_sub_cancel_left]

lemma handleEvents_seedInv {S O F : Type} (env : Env S O F) (mk : ℕ × ℕ)
    (evs : List PEvent) :
    ∀ g : GameState S O,
      SeedInv mk g.reset_counter
        (handleEvents env mk g evs).1.reset_counter
        (handleEvents env mk g evs).2 := by
  induction evs with
  | nil => intro g; exact seedInv_nil mk _
  | cons e rest ih =>
      intro g
      exact seedInv_append mk (handleEvent_seedInv env mk g e)
        (ih (handleEvent env mk g e).1)

lemma tickAfterEvents_seedInv {S O F : Type} (env : Env S O F) (mk : ℕ × ℕ)
    (g : GameState S O) (a? : Option ℤ) :
    SeedInv mk g.reset_counter
      (tickAfterEvents env mk g a?).g.reset_counter
      (tickAfterEvents env mk g a?).trace := by
  simp only [tickAfterEvents]
  split
  · split <;> exact ⟨le_refl _, by simp [resetKeys]⟩
  · split
    · exact ⟨le_refl _, by simp [resetKeys]⟩
    · split
      · split <;>
          exact ⟨Nat.le_succ _, by
            simp [resetKeys, Nat.add_sub_cancel_left]⟩
      · split <;> exact ⟨le_refl _, by simp [resetKeys]⟩

lemma loopIter_seedInv {S O F : Type} (env : Env S O F) (mk : ℕ × ℕ)
    (g : GameState S O) (inp : TickInput) :
    SeedInv mk g.reset_counter (loopIter env mk g inp).g.reset_counter
      (loopIter env mk g inp).trace :=
  seedInv_append mk (handleEvents_seedInv env mk inp.events g)
    (tickAfterEvents_seedInv env mk (handleEvents env mk g inp.events).1
      inp.action)

lemma runTicks_seedInv {S O F : Type} (env : Env S O F) (mk : ℕ × ℕ)
    (inputs : List TickInput) :
    ∀ g : GameState S O,
      SeedInv mk g.reset_counter
        (runTicks env mk g inputs).1.reset_counter
        (runTicks env mk g inputs).2.1 := by
  induction inputs with
  | nil => intro g; exact seedInv_nil mk _
  | cons inp rest ih =>
      intro g
      simp only [runTicks]
      split
      · split
        · exact loopIter_seedInv env mk g inp
        · exact seedInv_append mk (loopIter_seedInv env mk g inp)
            (ih (loopIter env mk g inp).g)
      · exact seedInv_nil mk _

/-- C10: at every point in the session, reset_counter equals the number of
environment reset calls performed so far — the counter is incremented
immediately after every reset call, including the initial one, so after
setup the counter holds 1 (not 0), and the n-th reset call (counting from
1) derives its seed from counter value n − 1: the keys of the reset calls
in the full session trace are exactly
`fold_in mk 0, …, fold_in mk (reset_counter − 1)`. -/
theorem reset_counter_equals_reset_calls {S O F : Type} (env : Env S O F)
    (mk : ℕ × ℕ) (g0 : GameState S O) (t0 : List (Event S))
    (hinit : initSession env mk = .ok (g0, t0)) :
    g0.reset_counter = 1 ∧
    t0 = [Event.resetCalled (fold_in mk 0)] ∧
    ∀ inputs : List TickInput,
      (runTicks env mk g0 inputs).1.reset_counter =
        (resetKeys (t0 ++ (runTicks env mk g0 inputs).2.1)).length ∧
      resetKeys (t0 ++ (runTicks env mk g0 inputs).2.1) =
        (List.range (runTicks env mk g0 inputs).1.reset_counter).map
          (fold_in mk) := by
  simp only [initSession] at hinit
  split at hinit
  · simp at hinit
  · simp only [Except.ok.injEq, Prod.mk.injEq] at hinit
    obtain ⟨hg, ht⟩ := hinit
    have hg0c : g0.reset_counter = 1 := by rw [← hg]
    refine ⟨hg0c, ht.symm, ?_⟩
    intro inputs
    have hinv := runTicks_seedInv env mk inputs g0
    unfold SeedInv at hinv
    obtain ⟨hc, hk⟩ := hinv
    rw [hg0c] at hc hk
    have happ : resetKeys (t0 ++ (runTicks env mk g0 inputs).2.1) =
        resetKeys t0 ++ resetKeys (runTicks env mk g0 inputs).2.1 := by
      unfold resetKeys
      exact List.filterMap_append _ _ _
    have hsingle :
        resetKeys (S := S) [Event.resetCalled (fold_in mk 0)] =
          [fold_in mk 0] := by
      simp [resetKeys]
    have hB : resetKeys (t0 ++ (runTicks env mk g0 inputs).2.1) =
        (List.range (runTicks env mk g0 inputs).1.reset_counter).map
          (fold_in mk) := by
      rw [happ, ← ht, hsingle, hk]
      obtain ⟨n, hn⟩ :
          ∃ n, (runTicks env mk g0 inputs).1.reset_counter = n + 1 :=
        ⟨(runTicks env mk g0 inputs).1.reset_counter - 1, by omega⟩
      rw [hn]
      simp [List.range_eq_range', List.range'_succ]
    refine ⟨?_, hB⟩
    rw [hB, List.length_map, List.length_range]

/-- The session state right after `initSession envDone master_key`. -/
def gInit : GameState ℕ ℕ :=
  { obs := 0, state := 3, reset_counter := 1, total_return := 0,
    pause := false, running := true }

/-- Witness for C10: one tick containing a manual R-key reset followed by
a done-step auto-reset; together with the initial reset the trace holds
three reset calls with keys `fold_in master 0, 1, 2`, and the counter
finishes at 3 = the number of reset calls. -/
theorem reset_counter_equals_reset_calls_witness :
    (runTicks envDone master_key gInit
        [⟨[PEvent.keyR], some 2⟩]).1.reset_counter =
      (resetKeys ([Event.resetCalled (fold_in master_key 0)] ++
        (runTicks envDone master_key gInit
          [⟨[PEvent.keyR], some 2⟩]).2.1)).length ∧
    resetKeys ([Event.resetCalled (fold_in master_key 0)] ++
        (runTicks envDone master_key gInit
          [⟨[PEvent.keyR], some 2⟩]).2.1) =
      (List.range (runTicks envDone master_key gInit
          [⟨[PEvent.keyR], some 2⟩]).1.reset_counter).map
        (fold_in master_key) :=
  (reset_counter_equals_reset_calls envDone master_key gInit
    [Event.resetCalled (fold_in master_key 0)] rfl).2.2
    [⟨[PEvent.keyR], some 2⟩]
